import Mathlib

set_option maxHeartbeats 1000000
set_option maxRecDepth 100000

/-!
Verification of the OpenManus agent execution engine.

This file gives a shallow embedding of the engine code:
  app/agent/base.py      (BaseAgent: state_context, run, is_stuck, handle_stuck_state)
  app/agent/react.py     (ReActAgent.step)
  app/agent/toolcall.py  (ToolCallAgent.think / act / execute_tool / special tools)
  app/tool/tool_collection.py (ToolCollection.execute)
  app/tool/base.py       (ToolResult truthiness and string rendering)
  app/flow/planning.py   (PlanningFlow.execute loop and plan-text rendering)
  app/agent/planning.py  (PlanningAgent._get_current_step_index parsing)

External collaborators (the LLM client, JSON parsing, concrete tools) are
parameters of the embedded functions.  Python exceptions are modelled with
`Except`, where the error value carries the exception together with the agent
object as mutated at raise time (Python mutates in place, so an exception
leaves the partially-mutated object visible to the caller).

The data transfer types of app/schema.py (AgentState, Message, Memory,
ToolCall) are not among the provided sources; they are modelled from the
specification, section 3.
-/

namespace OpenManus

/-- Modelled from the spec: app/schema.py is not among the provided sources;
section 3 fixes the agent lifecycle enum as IDLE, RUNNING, FINISHED, ERROR. -/
inductive AgentState where
  | IDLE
  | RUNNING
  | FINISHED
  | ERROR
  deriving DecidableEq, Repr

/-- Modelled from the spec: message roles are user, system, assistant, tool
(spec section 3, Message). -/
inductive Role where
  | user
  | system
  | assistant
  | tool
  deriving DecidableEq, Repr

/-- Function part of a tool call: target name plus the string-serialized
argument payload (spec section 3, ToolCall).  `arguments` is optional, as in
`command.function.arguments or "{}"` in ToolCallAgent.execute_tool. -/
structure ToolCallFunction where
  name : String
  arguments : Option String
  deriving DecidableEq, Repr

/-- A tool call produced by the model client.  `function` is optional because
ToolCallAgent.execute_tool guards `not command.function`. -/
structure ToolCall where
  id : String
  function : Option ToolCallFunction
  deriving DecidableEq, Repr

/-- Modelled from the spec: a Message has a role, optional textual content,
optional image attachment, and the tool bookkeeping fields (spec section 3). -/
structure Message where
  role : Role
  content : Option String
  base64Image : Option String
  name : Option String
  toolCallId : Option String
  toolCalls : List ToolCall
  deriving DecidableEq, Repr

/-- Python truthiness of an optional string: None and "" are falsy. -/
def contentTruthy : Option String → Bool
  | none => false
  | some s => !s.isEmpty

/-- Python str() of an optional string: f-string renders None as "None". -/
def pyStrOfOpt : Option String → String
  | none => "None"
  | some s => s

def Message.userMessage (c : String) : Message :=
  ⟨Role.user, some c, none, none, none, []⟩

def Message.assistantMessage (c : Option String) : Message :=
  ⟨Role.assistant, c, none, none, none, []⟩

def Message.fromToolCalls (c : Option String) (tcs : List ToolCall) : Message :=
  ⟨Role.assistant, c, none, none, none, tcs⟩

def Message.toolMessage (c : String) (callId : String) (toolName : String)
    (img : Option String) : Message :=
  ⟨Role.tool, some c, img, some toolName, some callId, []⟩

/-- The agent object: the fields of BaseAgent / ReActAgent / ToolCallAgent that
the engine mutates.  Memory is the append-only message list (spec section 3).
Prompts are optional strings as in BaseAgent. -/
structure Agent where
  state : AgentState
  currentStep : Nat
  maxSteps : Nat
  memory : List Message
  nextStepPrompt : Option String
  duplicateThreshold : Nat
  toolCalls : List ToolCall
  currentBase64Image : Option String
  maxObserve : Option Nat
  deriving DecidableEq, Repr

/-- BaseAgent.is_stuck: below 2 messages is never stuck; an untruthy content of
the LAST message (whatever its role) is never stuck; otherwise count, over all
earlier messages in reverse order, the assistant messages whose content equals
the last message content, and compare with duplicate_threshold. -/
def isStuck (a : Agent) : Bool :=
  if a.memory.length < 2 then false
  else
    match a.memory.getLast? with
    | none => false
    | some last =>
      if !contentTruthy last.content then false
      else
        decide (a.duplicateThreshold ≤
          ((a.memory.dropLast.reverse).filter
            (fun m => m.role == Role.assistant && m.content == last.content)).length)

/-- The corrective instruction of BaseAgent.handle_stuck_state (the Python
source uses a backslash line continuation, leaving the 8 leading spaces). -/
def stuckPrompt : String :=
  "        观察到重复响应。考虑新的策略，避免重复已经尝试过的无效路径。"

/-- BaseAgent.handle_stuck_state: prepend the corrective instruction to
next_step_prompt (an f-string, so a None prompt renders as "None"). -/
def handleStuckState (a : Agent) : Agent :=
  { a with nextStepPrompt := some (stuckPrompt ++ "\n" ++ pyStrOfOpt a.nextStepPrompt) }

/-- Python exceptions used by the engine.  `retryError` models an exception
carrying a `__cause__` (tenacity RetryError around the LLM call). -/
inductive PyError where
  | runtimeError (msg : String)
  | valueError (msg : String)
  | toolError (msg : String)
  | jsonDecodeError (msg : String)
  | typeError (msg : String)
  | tokenLimitExceeded (msg : String)
  | retryError (cause : Option PyError) (msg : String)
  | other (msg : String)

/-- Python str() of an exception: its message. -/
def pyStr : PyError → String
  | PyError.runtimeError m => m
  | PyError.valueError m => m
  | PyError.toolError m => m
  | PyError.jsonDecodeError m => m
  | PyError.typeError m => m
  | PyError.tokenLimitExceeded m => m
  | PyError.retryError _ m => m
  | PyError.other m => m

/-- Modelled from the spec: app/schema.py is absent, so the exact rendering of
an AgentState in the invalid-state message is taken from the enum names of
spec section 3. -/
def stateStr : AgentState → String
  | AgentState.IDLE => "AgentState.IDLE"
  | AgentState.RUNNING => "AgentState.RUNNING"
  | AgentState.FINISHED => "AgentState.FINISHED"
  | AgentState.ERROR => "AgentState.ERROR"

/-- A step implementation (BaseAgent.step is abstract).  The error value
carries the agent as mutated at raise time. -/
def StepFn : Type :=
  Agent → Except (PyError × Agent) (Agent × String)

/-- BaseAgent.state_context: saves the previous state, installs `newState`,
runs the body; an exception sets the state to ERROR and re-raises, and the
finally block restores the previous state on every exit path.  The second
component records the sequence of state assignments the context manager itself
performs, in order. -/
def stateContext {α : Type} (newState : AgentState)
    (body : Agent → Except (PyError × Agent) (Agent × α)) (a : Agent) :
    Except (PyError × Agent) (Agent × α) × List AgentState :=
  let prev := a.state
  match body { a with state := newState } with
  | Except.ok (b, x) =>
    (Except.ok ({ b with state := prev }, x), [newState, prev])
  | Except.error (e, berr) =>
    let berrWithError := { berr with state := AgentState.ERROR }
    (Except.error (e, { berrWithError with state := prev }),
      [newState, AgentState.ERROR, prev])

/-- The stuck check performed after each step inside BaseAgent.run. -/
def stuckProc (b : Agent) : Agent :=
  if isStuck b then handleStuckState b else b

/-- The while loop of BaseAgent.run.  The loop body increments the counter,
invokes step, runs the stuck check, and appends one result line.  Fuel bounds
the number of iterations; `run` supplies max_steps - current_step, which is
exact whenever the step implementation leaves the counters alone (as every
step in the repository does — the lemmas below make that hypothesis
explicit). -/
def runLoop (step : StepFn) :
    Nat → Agent → List String → Except (PyError × Agent) (Agent × List String)
  | 0, a, res => Except.ok (a, res)
  | fuel + 1, a, res =>
    if a.currentStep < a.maxSteps ∧ a.state ≠ AgentState.FINISHED then
      match step { a with currentStep := a.currentStep + 1 } with
      | Except.error e => Except.error e
      | Except.ok (b, r) =>
        let b2 := stuckProc b
        runLoop step fuel b2
          (res ++ ["步骤 " ++ toString b2.currentStep ++ ": " ++ r])
    else Except.ok (a, res)

/-- The body of the `async with state_context(RUNNING)` block of BaseAgent.run:
the step loop followed by the budget-exhaustion branch, which resets
current_step to 0, forces IDLE and appends the budget notice. -/
def runBody (step : StepFn) (a : Agent) :
    Except (PyError × Agent) (Agent × List String) :=
  match runLoop step (a.maxSteps - a.currentStep) a [] with
  | Except.error e => Except.error e
  | Except.ok (b, res) =>
    if b.maxSteps ≤ b.currentStep then
      Except.ok ({ b with currentStep := 0, state := AgentState.IDLE },
        res ++ ["终止: 达到最大步骤数 (" ++ toString b.maxSteps ++ ")"])
    else Except.ok (b, res)

/-- Appending the optional initial request to memory (`if request:` — an empty
string is falsy and appends nothing). -/
def applyRequest (request : Option String) (a : Agent) : Agent :=
  match request with
  | some r =>
    if r.isEmpty then a else { a with memory := a.memory ++ [Message.userMessage r] }
  | none => a

/-- BaseAgent.run: invalid-state guard, request append, the scoped RUNNING
transition around the loop, and result joining (the sandbox cleanup hook is an
external collaborator and has no effect on the modelled state). -/
def run (step : StepFn) (request : Option String) (a : Agent) :
    Except (PyError × Agent) (Agent × String) :=
  if a.state ≠ AgentState.IDLE then
    Except.error
      (PyError.runtimeError ("无法从状态运行代理: " ++ stateStr a.state), a)
  else
    let a1 := applyRequest request a
    match (stateContext AgentState.RUNNING (runBody step) a1).1 with
    | Except.error e => Except.error e
    | Except.ok (a2, res) =>
      Except.ok (a2, if res.isEmpty then "未执行任何步骤" else String.intercalate "\n" res)

/-- Every step implementation in the repository returns normally on the runs
considered by the lifecycle theorems; this predicate makes that explicit. -/
def StepOk (step : StepFn) : Prop :=
  ∀ b, ∃ b2 r, step b = Except.ok (b2, r)

/-- No step implementation in the repository writes current_step or max_steps;
only the run loop owns those counters. -/
def StepKeepsCounters (step : StepFn) : Prop :=
  ∀ b b2 r, step b = Except.ok (b2, r) →
    b2.currentStep = b.currentStep ∧ b2.maxSteps = b.maxSteps

/-- A step that never drives the agent to FINISHED (no terminate signal, no
token-limit shortcut). -/
def StepNeverFinished (step : StepFn) : Prop :=
  ∀ b b2 r, step b = Except.ok (b2, r) → b2.state ≠ AgentState.FINISHED

lemma stuckProc_state (b : Agent) : (stuckProc b).state = b.state := by
  unfold stuckProc handleStuckState
  split <;> rfl

lemma stuckProc_currentStep (b : Agent) : (stuckProc b).currentStep = b.currentStep := by
  unfold stuckProc handleStuckState
  split <;> rfl

lemma stuckProc_maxSteps (b : Agent) : (stuckProc b).maxSteps = b.maxSteps := by
  unfold stuckProc handleStuckState
  split <;> rfl

lemma applyRequest_state (request : Option String) (a : Agent) :
    (applyRequest request a).state = a.state := by
  unfold applyRequest
  cases request with
  | none => rfl
  | some r => dsimp only; split <;> rfl

lemma applyRequest_currentStep (request : Option String) (a : Agent) :
    (applyRequest request a).currentStep = a.currentStep := by
  unfold applyRequest
  cases request with
  | none => rfl
  | some r => dsimp only; split <;> rfl

lemma applyRequest_maxSteps (request : Option String) (a : Agent) :
    (applyRequest request a).maxSteps = a.maxSteps := by
  unfold applyRequest
  cases request with
  | none => rfl
  | some r => dsimp only; split <;> rfl

lemma runLoop_zero (step : StepFn) (a : Agent) (res : List String) :
    runLoop step 0 a res = Except.ok (a, res) := rfl

lemma runLoop_succ (step : StepFn) (n : Nat) (a : Agent) (res : List String) :
    runLoop step (n + 1) a res =
      if a.currentStep < a.maxSteps ∧ a.state ≠ AgentState.FINISHED then
        match step { a with currentStep := a.currentStep + 1 } with
        | Except.error e => Except.error e
        | Except.ok (b, r) =>
          runLoop step n (stuckProc b)
            (res ++ ["步骤 " ++ toString (stuckProc b).currentStep ++ ": " ++ r])
      else Except.ok (a, res) := by
  rfl

/-- Once the state is FINISHED the loop condition fails and the loop returns
the accumulated results unchanged. -/
lemma runLoop_stops_when_finished (step : StepFn) (fuel : Nat) (a : Agent)
    (res : List String) (h : a.state = AgentState.FINISHED) :
    runLoop step fuel a res = Except.ok (a, res) := by
  cases fuel with
  | zero => rfl
  | succ n =>
    rw [runLoop_succ, if_neg (fun hc => hc.2 h)]

/-- With a normally-returning, counter-preserving, never-finishing step and
exactly max_steps - current_step fuel, the loop runs its full budget: it
appends one result line per step invocation and ends with the counter at the
budget. -/
lemma runLoop_exhausts (step : StepFn) (hok : StepOk step)
    (hkeep : StepKeepsCounters step) (hfin : StepNeverFinished step) :
    ∀ (fuel : Nat) (a : Agent) (res : List String),
      fuel = a.maxSteps - a.currentStep → a.currentStep ≤ a.maxSteps →
      a.state ≠ AgentState.FINISHED →
      ∃ b lines, runLoop step fuel a res = Except.ok (b, res ++ lines) ∧
        lines.length = fuel ∧ b.currentStep = b.maxSteps ∧ b.maxSteps = a.maxSteps := by
  intro fuel
  induction fuel with
  | zero =>
    intro a res hf hle _
    exact ⟨a, [], by rw [runLoop_zero]; simp, rfl, by omega, rfl⟩
  | succ n ih =>
    intro a res hf hle hnf
    have hlt : a.currentStep < a.maxSteps := by omega
    obtain ⟨b, r, hstep⟩ := hok { a with currentStep := a.currentStep + 1 }
    obtain ⟨hcs, hms⟩ := hkeep _ _ _ hstep
    have hbf := hfin _ _ _ hstep
    have hb2cs : (stuckProc b).currentStep = a.currentStep + 1 := by
      rw [stuckProc_currentStep, hcs]
    have hb2ms : (stuckProc b).maxSteps = a.maxSteps := by
      rw [stuckProc_maxSteps, hms]
    have hb2st : (stuckProc b).state ≠ AgentState.FINISHED := by
      rw [stuckProc_state]; exact hbf
    obtain ⟨c, lines, hrec, hlen, hcm, hmm⟩ :=
      ih (stuckProc b)
        (res ++ ["步骤 " ++ toString (stuckProc b).currentStep ++ ": " ++ r])
        (by omega) (by omega) hb2st
    refine ⟨c, ("步骤 " ++ toString (stuckProc b).currentStep ++ ": " ++ r) :: lines,
      ?_, by simp [hlen], hcm, by rw [hmm, hb2ms]⟩
    have hunf : runLoop step (n + 1) a res =
        runLoop step n (stuckProc b)
          (res ++ ["步骤 " ++ toString (stuckProc b).currentStep ++ ": " ++ r]) := by
      rw [runLoop_succ, if_pos ⟨hlt, hnf⟩, hstep]
    rw [hunf, hrec]
    simp

/-- Any step loop with a normally-returning step returns normally (for every
fuel value). -/
lemma runLoop_ok_of_stepOk (step : StepFn) (hok : StepOk step) :
    ∀ (fuel : Nat) (a : Agent) (res : List String),
      ∃ b res2, runLoop step fuel a res = Except.ok (b, res2) := by
  intro fuel
  induction fuel with
  | zero => intro a res; exact ⟨a, res, rfl⟩
  | succ n ih =>
    intro a res
    by_cases hc : a.currentStep < a.maxSteps ∧ a.state ≠ AgentState.FINISHED
    · obtain ⟨b, r, hstep⟩ := hok { a with currentStep := a.currentStep + 1 }
      obtain ⟨c, res2, hrec⟩ :=
        ih (stuckProc b)
          (res ++ ["步骤 " ++ toString (stuckProc b).currentStep ++ ": " ++ r])
      refine ⟨c, res2, ?_⟩
      have hunf : runLoop step (n + 1) a res =
          runLoop step n (stuckProc b)
            (res ++ ["步骤 " ++ toString (stuckProc b).currentStep ++ ": " ++ r]) := by
        rw [runLoop_succ, if_pos hc, hstep]
      rw [hunf, hrec]
    · exact ⟨a, res, by rw [runLoop_succ, if_neg hc]⟩

lemma runBody_ok_of_stepOk (step : StepFn) (hok : StepOk step) (a : Agent) :
    ∃ b res, runBody step a = Except.ok (b, res) := by
  obtain ⟨b, res, h⟩ := runLoop_ok_of_stepOk step hok (a.maxSteps - a.currentStep) a []
  by_cases hc : b.maxSteps ≤ b.currentStep
  · exact ⟨_, _, by unfold runBody; rw [h]; dsimp only; rw [if_pos hc]⟩
  · exact ⟨b, res, by unfold runBody; rw [h]; dsimp only; rw [if_neg hc]⟩

/-- Shape of run when the agent starts IDLE and the loop body returns
normally: the scope restores the pre-entry state on the returned agent, and
the result lines are joined (or the no-steps sentinel returned). -/
lemma run_of_runBody_ok (step : StepFn) (request : Option String) (a b : Agent)
    (res : List String) (hidle : a.state = AgentState.IDLE)
    (hbody : runBody step { applyRequest request a with state := AgentState.RUNNING } =
      Except.ok (b, res)) :
    run step request a = Except.ok ({ b with state := a.state },
      if res.isEmpty then "未执行任何步骤" else String.intercalate "\n" res) := by
  unfold run
  rw [if_neg (fun h => h hidle)]
  unfold stateContext
  dsimp only
  rw [hbody]
  rw [applyRequest_state]

/-- Exhausting the budget: with a never-finishing step the loop body runs
max_steps - current_step iterations, then returns the reset agent and appends
the budget notice after the result lines. -/
lemma runBody_exhausts (step : StepFn) (hok : StepOk step)
    (hkeep : StepKeepsCounters step) (hfin : StepNeverFinished step) (a : Agent)
    (hle : a.currentStep ≤ a.maxSteps) (hnf : a.state ≠ AgentState.FINISHED) :
    ∃ b lines, runBody step a = Except.ok (b,
        lines ++ ["终止: 达到最大步骤数 (" ++ toString a.maxSteps ++ ")"]) ∧
      lines.length = a.maxSteps - a.currentStep ∧ b.currentStep = 0 ∧
      b.state = AgentState.IDLE := by
  obtain ⟨b, lines, hloop, hlen, hcm, hmm⟩ :=
    runLoop_exhausts step hok hkeep hfin (a.maxSteps - a.currentStep) a [] rfl
      hle hnf
  refine ⟨{ b with currentStep := 0, state := AgentState.IDLE }, lines, ?_,
    hlen, rfl, rfl⟩
  unfold runBody
  rw [hloop]
  dsimp only
  rw [if_pos (by omega)]
  simp [hmm]

/-- C1: for every agent started IDLE with a zero step counter and budget N,
and every step implementation that returns normally, keeps the counters and
never reaches FINISHED, run() performs exactly N step invocations (one result
line is appended per invocation, so the N lines witness the N invocations),
then resets current_step to 0, leaves the agent IDLE, and returns the
newline-join of the N per-step lines followed by the budget-exceeded notice
as the final line. -/
theorem run_budget_exhaustion (step : StepFn) (request : Option String) (a : Agent)
    (hok : StepOk step) (hkeep : StepKeepsCounters step) (hfin : StepNeverFinished step)
    (hidle : a.state = AgentState.IDLE) (hzero : a.currentStep = 0) :
    ∃ b lines, run step request a = Except.ok (b, String.intercalate "\n"
        (lines ++ ["终止: 达到最大步骤数 (" ++ toString a.maxSteps ++ ")"])) ∧
      lines.length = a.maxSteps ∧ b.currentStep = 0 ∧ b.state = AgentState.IDLE := by
  obtain ⟨b, lines, hbody, hlen, hcs, hst⟩ :=
    runBody_exhausts step hok hkeep hfin
      { applyRequest request a with state := AgentState.RUNNING }
      (by show (applyRequest request a).currentStep ≤ (applyRequest request a).maxSteps
          rw [applyRequest_currentStep, applyRequest_maxSteps]; omega)
      (by show AgentState.RUNNING ≠ AgentState.FINISHED; simp)
  have hms : ({ applyRequest request a with state := AgentState.RUNNING } : Agent).maxSteps = a.maxSteps := by
    show (applyRequest request a).maxSteps = a.maxSteps
    rw [applyRequest_maxSteps]
  have hc0 : ({ applyRequest request a with state := AgentState.RUNNING } : Agent).currentStep = 0 := by
    show (applyRequest request a).currentStep = 0
    rw [applyRequest_currentStep]; exact hzero
  rw [hms] at hbody
  rw [hms, hc0] at hlen
  have hrun := run_of_runBody_ok step request a b _ hidle hbody
  refine ⟨{ b with state := a.state }, lines, ?_, by omega, hcs, hidle⟩
  rw [hrun]
  have hne : (lines ++ ["终止: 达到最大步骤数 (" ++ toString a.maxSteps ++ ")"]).isEmpty = false := by
    cases lines <;> rfl
  rw [hne]
  rfl

/-- Core facts about state_context: normal exit restores the pre-entry state;
an exception propagates an agent whose state is the restored pre-entry value,
after the context manager assigned ERROR (trace [newState, ERROR, prev]). -/
lemma stateContext_shape {α : Type}
    (body : Agent → Except (PyError × Agent) (Agent × α)) (a : Agent)
    (ns : AgentState) :
    (∀ b x, (stateContext ns body a).1 = Except.ok (b, x) → b.state = a.state) ∧
    (∀ e berr, (stateContext ns body a).1 = Except.error (e, berr) →
      berr.state = a.state ∧
      (stateContext ns body a).2 = [ns, AgentState.ERROR, a.state]) := by
  constructor
  · intro b x h
    unfold stateContext at h
    dsimp only at h
    cases hb : body { a with state := ns } with
    | ok p =>
      rw [hb] at h
      cases p with
      | mk b1 x1 =>
        simp only [Except.ok.injEq, Prod.mk.injEq] at h
        rw [← h.1]
    | error p => rw [hb] at h; cases p; simp at h
  · intro e berr h
    unfold stateContext
    unfold stateContext at h
    dsimp only at h ⊢
    cases hb : body { a with state := ns } with
    | ok p => rw [hb] at h; cases p; simp at h
    | error p =>
      rw [hb] at h
      cases p with
      | mk e1 b1 =>
        simp only [Except.error.injEq, Prod.mk.injEq] at h
        exact ⟨by rw [← h.2], rfl⟩

/-- C2: the scoped state transition of BaseAgent.state_context guarantees
that on normal exit the state equals its pre-entry value; that on an unhandled
exception the context manager assigns ERROR before its final restore (the
recorded assignment sequence is [newState, ERROR, previous]) and the
propagated agent carries the restored pre-entry state; and consequently that
ERROR is never the resting state after run() returns or after its exception
has propagated, provided the agent did not already rest in ERROR. -/
theorem state_context_guarantee {α : Type}
    (body : Agent → Except (PyError × Agent) (Agent × α)) (a : Agent)
    (ns : AgentState) (step : StepFn) (request : Option String) :
    (∀ b x, (stateContext ns body a).1 = Except.ok (b, x) → b.state = a.state) ∧
    (∀ e berr, (stateContext ns body a).1 = Except.error (e, berr) →
      berr.state = a.state ∧
      (stateContext ns body a).2 = [ns, AgentState.ERROR, a.state]) ∧
    (a.state ≠ AgentState.ERROR →
      (∀ b out, run step request a = Except.ok (b, out) → b.state ≠ AgentState.ERROR) ∧
      (∀ e berr, run step request a = Except.error (e, berr) →
        berr.state ≠ AgentState.ERROR)) := by
  refine ⟨(stateContext_shape body a ns).1, (stateContext_shape body a ns).2, ?_⟩
  intro hne
  have hrunBlock :
      (∀ b out, run step request a = Except.ok (b, out) → b.state ≠ AgentState.ERROR) ∧
      (∀ e berr, run step request a = Except.error (e, berr) →
        berr.state ≠ AgentState.ERROR) := by
    constructor
    · intro b out h
      unfold run at h
      by_cases hs : a.state ≠ AgentState.IDLE
      · rw [if_pos hs] at h; cases h
      · rw [if_neg hs] at h
        dsimp only at h
        cases hc : (stateContext AgentState.RUNNING (runBody step) (applyRequest request a)).1 with
        | error p => rw [hc] at h; cases h
        | ok p =>
          rw [hc] at h
          cases p with
          | mk b1 res =>
            simp only [Except.ok.injEq, Prod.mk.injEq] at h
            have hst := (stateContext_shape (runBody step)
              (applyRequest request a) AgentState.RUNNING).1 b1 res hc
            rw [← h.1, hst, applyRequest_state]
            exact hne
    · intro e berr h
      unfold run at h
      by_cases hs : a.state ≠ AgentState.IDLE
      · rw [if_pos hs] at h
        simp only [Except.error.injEq, Prod.mk.injEq] at h
        rw [← h.2]
        exact hne
      · rw [if_neg hs] at h
        dsimp only at h
        cases hc : (stateContext AgentState.RUNNING (runBody step) (applyRequest request a)).1 with
        | ok p => rw [hc] at h; cases h
        | error p =>
          rw [hc] at h
          cases p with
          | mk e1 b1 =>
            simp only [Except.error.injEq, Prod.mk.injEq] at h
            have hst := (stateContext_shape (runBody step)
              (applyRequest request a) AgentState.RUNNING).2 e1 b1 hc
            rw [← h.2, hst.1, applyRequest_state]
            exact hne
  exact hrunBlock

/-- C7: run() raises the invalid-state RuntimeError when called outside IDLE,
returning the agent object unchanged (state and memory untouched, since the
guard precedes every mutation); when called in IDLE with a normally-returning
step it does not raise at all. -/
theorem run_invalid_state (step : StepFn) (request : Option String) (a : Agent) :
    (a.state ≠ AgentState.IDLE →
      run step request a = Except.error
        (PyError.runtimeError ("无法从状态运行代理: " ++ stateStr a.state), a)) ∧
    (a.state = AgentState.IDLE → StepOk step →
      ∃ b out, run step request a = Except.ok (b, out)) := by
  constructor
  · intro h
    unfold run
    rw [if_pos h]
  · intro hidle hok
    obtain ⟨b, res, hbody⟩ := runBody_ok_of_stepOk step hok
      { applyRequest request a with state := AgentState.RUNNING }
    exact ⟨_, _, run_of_runBody_ok step request a b res hidle hbody⟩

/-- If the step sets FINISHED exactly on the invocation that sees
current_step = k (and not before), the loop stops right after that invocation
with the counter at k, appending k - start lines. -/
lemma runLoop_finishes_at (step : StepFn) (k : Nat) (hok : StepOk step)
    (hkeep : StepKeepsCounters step)
    (hfin : ∀ b b2 r, step b = Except.ok (b2, r) → b.currentStep = k →
      b2.state = AgentState.FINISHED)
    (hnot : ∀ b b2 r, step b = Except.ok (b2, r) → b.currentStep < k →
      b2.state ≠ AgentState.FINISHED) :
    ∀ (fuel : Nat) (a : Agent) (res : List String),
      a.currentStep < k → k ≤ a.maxSteps → a.state ≠ AgentState.FINISHED →
      k - a.currentStep ≤ fuel →
      ∃ b lines, runLoop step fuel a res = Except.ok (b, res ++ lines) ∧
        lines.length = k - a.currentStep ∧ b.currentStep = k ∧
        b.maxSteps = a.maxSteps ∧ b.state = AgentState.FINISHED := by
  intro fuel
  induction fuel with
  | zero => intro a res hck hkm hnf hfu; omega
  | succ n ih =>
    intro a res hck hkm hnf hfu
    have hlt : a.currentStep < a.maxSteps := by omega
    obtain ⟨b, r, hstep⟩ := hok { a with currentStep := a.currentStep + 1 }
    obtain ⟨hcs, hms⟩ := hkeep _ _ _ hstep
    have hb2cs : (stuckProc b).currentStep = a.currentStep + 1 := by
      rw [stuckProc_currentStep]; exact hcs
    have hb2ms : (stuckProc b).maxSteps = a.maxSteps := by
      rw [stuckProc_maxSteps]; exact hms
    by_cases hkk : a.currentStep + 1 = k
    · have hbf : b.state = AgentState.FINISHED := hfin _ _ _ hstep hkk
      refine ⟨stuckProc b,
        ["步骤 " ++ toString (stuckProc b).currentStep ++ ": " ++ r], ?_, ?_, ?_, ?_, ?_⟩
      · rw [runLoop_succ, if_pos ⟨hlt, hnf⟩, hstep]
        exact runLoop_stops_when_finished step n (stuckProc b) _
          (by rw [stuckProc_state]; exact hbf)
      · simp; omega
      · omega
      · exact hb2ms
      · rw [stuckProc_state]; exact hbf
    · have hlt2 : a.currentStep + 1 < k := by omega
      have hbf : b.state ≠ AgentState.FINISHED := hnot _ _ _ hstep hlt2
      have hb2st : (stuckProc b).state ≠ AgentState.FINISHED := by
        rw [stuckProc_state]; exact hbf
      obtain ⟨c, lines, hrec, hlen, hck2, hmm2, hst2⟩ :=
        ih (stuckProc b)
          (res ++ ["步骤 " ++ toString (stuckProc b).currentStep ++ ": " ++ r])
          (by omega) (by omega) hb2st (by omega)
      refine ⟨c, ("步骤 " ++ toString (stuckProc b).currentStep ++ ": " ++ r) :: lines,
        ?_, ?_, hck2, by rw [hmm2, hb2ms], hst2⟩
      · rw [runLoop_succ, if_pos ⟨hlt, hnf⟩, hstep]
        exact hrec.trans (by simp)
      · simp [hlen]; omega

/-- C8: when the step implementation reaches FINISHED exactly on its k-th
invocation (the one that sees current_step = k), with 1 ≤ k < max_steps, run()
returns with current_step still equal to k — the counter is reset only on
budget exhaustion — and the agent resting IDLE; an immediately following run()
on the returned agent with a never-finishing step therefore performs only
max_steps − k further step invocations before appending the budget-exceeded
notice. -/
theorem run_finished_keeps_step_counter (step step2 : StepFn)
    (req req2 : Option String) (a : Agent) (k : Nat)
    (hok : StepOk step) (hkeep : StepKeepsCounters step)
    (hfin : ∀ b b2 r, step b = Except.ok (b2, r) → b.currentStep = k →
      b2.state = AgentState.FINISHED)
    (hnot : ∀ b b2 r, step b = Except.ok (b2, r) → b.currentStep < k →
      b2.state ≠ AgentState.FINISHED)
    (hok2 : StepOk step2) (hkeep2 : StepKeepsCounters step2)
    (hfin2 : StepNeverFinished step2)
    (hidle : a.state = AgentState.IDLE) (hzero : a.currentStep = 0)
    (hk1 : 1 ≤ k) (hkN : k < a.maxSteps) :
    ∃ b out, run step req a = Except.ok (b, out) ∧ b.currentStep = k ∧
      b.state = AgentState.IDLE ∧ b.maxSteps = a.maxSteps ∧
      ∃ b2 lines, run step2 req2 b = Except.ok (b2, String.intercalate "\n"
          (lines ++ ["终止: 达到最大步骤数 (" ++ toString a.maxSteps ++ ")"])) ∧
        lines.length = a.maxSteps - k ∧ b2.currentStep = 0 ∧
        b2.state = AgentState.IDLE := by
  have hc0 : ({ applyRequest req a with state := AgentState.RUNNING } : Agent).currentStep = 0 := by
    show (applyRequest req a).currentStep = 0
    rw [applyRequest_currentStep]; exact hzero
  have hms : ({ applyRequest req a with state := AgentState.RUNNING } : Agent).maxSteps = a.maxSteps := by
    show (applyRequest req a).maxSteps = a.maxSteps
    rw [applyRequest_maxSteps]
  obtain ⟨b, lines, hloop, hlen, hck, hbms, hbfin⟩ :=
    runLoop_finishes_at step k hok hkeep hfin hnot
      (({ applyRequest req a with state := AgentState.RUNNING } : Agent).maxSteps -
        ({ applyRequest req a with state := AgentState.RUNNING } : Agent).currentStep)
      { applyRequest req a with state := AgentState.RUNNING } []
      (by omega) (by omega) (by show AgentState.RUNNING ≠ AgentState.FINISHED; simp)
      (by omega)
  have hbody : runBody step { applyRequest req a with state := AgentState.RUNNING } =
      Except.ok (b, [] ++ lines) := by
    unfold runBody
    rw [hloop]
    dsimp only
    rw [if_neg (by omega)]
  have hrun := run_of_runBody_ok step req a b _ hidle hbody
  refine ⟨{ b with state := a.state }, _, hrun, hck, hidle, by rw [hbms, hms], ?_⟩
  have hidle2 : ({ b with state := a.state } : Agent).state = AgentState.IDLE := hidle
  have hc2 : ({ applyRequest req2 { b with state := a.state } with state := AgentState.RUNNING } : Agent).currentStep = k := by
    show (applyRequest req2 { b with state := a.state }).currentStep = k
    rw [applyRequest_currentStep]; exact hck
  have hm2 : ({ applyRequest req2 { b with state := a.state } with state := AgentState.RUNNING } : Agent).maxSteps = a.maxSteps := by
    show (applyRequest req2 { b with state := a.state }).maxSteps = a.maxSteps
    rw [applyRequest_maxSteps]
    show b.maxSteps = a.maxSteps
    rw [hbms, hms]
  obtain ⟨b2, lines2, hbody2, hlen2, hcs2, hst2⟩ :=
    runBody_exhausts step2 hok2 hkeep2 hfin2
      { applyRequest req2 { b with state := a.state } with state := AgentState.RUNNING }
      (by omega)
      (by show AgentState.RUNNING ≠ AgentState.FINISHED; simp)
  rw [hm2] at hbody2
  rw [hm2, hc2] at hlen2
  have hrun2 := run_of_runBody_ok step2 req2 { b with state := a.state } b2 _ hidle2 hbody2
  refine ⟨{ b2 with state := ({ b with state := a.state } : Agent).state }, lines2, ?_,
    hlen2, hcs2, hidle⟩
  rw [hrun2]
  have hne : (lines2 ++ ["终止: 达到最大步骤数 (" ++ toString a.maxSteps ++ ")"]).isEmpty = false := by
    cases lines2 <;> rfl
  rw [hne]
  rfl

/-- A concrete step that returns normally, keeps the counters and never
finishes. -/
def w1Step : StepFn := fun b =>
  Except.ok ({ b with state := AgentState.RUNNING }, "ok")

/-- A concrete freshly constructed agent with a budget of 2. -/
def w1Agent : Agent :=
  ⟨AgentState.IDLE, 0, 2, [], none, 2, [], none, none⟩

/-- Witness for run_budget_exhaustion at a concrete agent and step. -/
theorem run_budget_exhaustion_witness :
    ∃ b lines, run w1Step none w1Agent = Except.ok (b, String.intercalate "\n"
        (lines ++ ["终止: 达到最大步骤数 (" ++ toString w1Agent.maxSteps ++ ")"])) ∧
      lines.length = w1Agent.maxSteps ∧ b.currentStep = 0 ∧
      b.state = AgentState.IDLE :=
  run_budget_exhaustion w1Step none w1Agent
    (fun b => ⟨_, _, rfl⟩)
    (fun b b2 r h => by cases h; exact ⟨rfl, rfl⟩)
    (fun b b2 r h => by cases h; simp [w1Step])
    rfl rfl

/-- A concrete body that raises. -/
def w2Body : Agent → Except (PyError × Agent) (Agent × Unit) :=
  fun b => Except.error (PyError.other "boom", b)

/-- A concrete step used for the run part of the C2 witness. -/
def w2Step : StepFn := fun b => Except.ok (b, "done")

/-- A concrete agent resting IDLE. -/
def w2Agent : Agent :=
  ⟨AgentState.IDLE, 0, 3, [], none, 2, [], none, none⟩

/-- The agent carried by the exception that w2Body makes stateContext
propagate. -/
def w2ErrAgent : Agent :=
  match (stateContext AgentState.RUNNING w2Body w2Agent).1 with
  | Except.error (_, b) => b
  | Except.ok (b, _) => b

/-- Witness for state_context_guarantee on a concrete raising body: the
propagated agent has the pre-entry state and the assignment trace passed
through ERROR before the final restore. -/
theorem state_context_guarantee_witness :
    w2ErrAgent.state = w2Agent.state ∧
    (stateContext AgentState.RUNNING w2Body w2Agent).2 =
      [AgentState.RUNNING, AgentState.ERROR, w2Agent.state] :=
  (state_context_guarantee w2Body w2Agent AgentState.RUNNING w2Step none).2.1
    (PyError.other "boom") w2ErrAgent rfl

/-- A concrete agent caught mid-run (state RUNNING). -/
def w7Agent : Agent :=
  ⟨AgentState.RUNNING, 0, 3, [], none, 2, [], none, none⟩

/-- A concrete agent resting IDLE. -/
def w7IdleAgent : Agent :=
  ⟨AgentState.IDLE, 0, 3, [], none, 2, [], none, none⟩

/-- A concrete step returning the agent unchanged. -/
def w7Step : StepFn := fun b => Except.ok (b, "done")

/-- Witness for run_invalid_state: a RUNNING agent rejects run() with the
invalid-state error and the untouched agent, an IDLE agent runs normally. -/
theorem run_invalid_state_witness :
    run w7Step none w7Agent = Except.error
      (PyError.runtimeError ("无法从状态运行代理: " ++ stateStr w7Agent.state),
        w7Agent) ∧
    ∃ b out, run w7Step none w7IdleAgent = Except.ok (b, out) :=
  ⟨(run_invalid_state w7Step none w7Agent).1 (by simp [w7Agent]),
   (run_invalid_state w7Step none w7IdleAgent).2 rfl (fun b => ⟨b, "done", rfl⟩)⟩

/-- A concrete step that terminates (reaches FINISHED) exactly on its first
invocation. -/
def w8Step : StepFn := fun b =>
  Except.ok ({ b with state :=
    if 1 ≤ b.currentStep then AgentState.FINISHED else AgentState.IDLE }, "行动")

/-- A concrete never-finishing step for the follow-up run. -/
def w8Step2 : StepFn := fun b =>
  Except.ok ({ b with state := AgentState.RUNNING }, "继续")

/-- A concrete agent with a budget of 3. -/
def w8Agent : Agent :=
  ⟨AgentState.IDLE, 0, 3, [], none, 2, [], none, none⟩

/-- Witness for run_finished_keeps_step_counter with k = 1 and budget 3: the
first run keeps current_step = 1 and the follow-up run performs only 2 steps
before the budget notice. -/
theorem run_finished_keeps_step_counter_witness :
    ∃ b out, run w8Step none w8Agent = Except.ok (b, out) ∧ b.currentStep = 1 ∧
      b.state = AgentState.IDLE ∧ b.maxSteps = w8Agent.maxSteps ∧
      ∃ b2 lines, run w8Step2 none b = Except.ok (b2, String.intercalate "\n"
          (lines ++ ["终止: 达到最大步骤数 (" ++ toString w8Agent.maxSteps ++ ")"])) ∧
        lines.length = w8Agent.maxSteps - 1 ∧ b2.currentStep = 0 ∧
        b2.state = AgentState.IDLE :=
  run_finished_keeps_step_counter w8Step w8Step2 none none w8Agent 1
    (fun b => ⟨_, _, rfl⟩)
    (fun b b2 r h => by cases h; exact ⟨rfl, rfl⟩)
    (fun b b2 r h hk => by cases h; simp [w8Step, hk])
    (fun b b2 r h hk => by
      cases h
      have hz : ¬(1 ≤ b.currentStep) := by omega
      simp [w8Step, hz])
    (fun b => ⟨_, _, rfl⟩)
    (fun b b2 r h => by cases h; exact ⟨rfl, rfl⟩)
    (fun b b2 r h => by cases h; simp [w8Step2])
    rfl rfl (by omega) (by simp [w8Agent])

/-- Splits off the most recent assistant message: returns the messages before
it and the message itself, or none when no assistant message exists. -/
def splitLastAssistant : List Message → Option (List Message × Message)
  | [] => none
  | m :: rest =>
    match splitLastAssistant rest with
    | some (pre, x) => some (m :: pre, x)
    | none => if m.role == Role.assistant then some ([], m) else none

/-- The stuck predicate exactly as the claim words it (for comparison with the
source function isStuck): at least 2 messages, and the most recent ASSISTANT
message has truthy content equal to the content of at least
duplicate_threshold earlier assistant messages. -/
def specIsStuck (a : Agent) : Bool :=
  decide (2 ≤ a.memory.length) &&
  (match splitLastAssistant a.memory with
   | none => false
   | some (pre, m) =>
     contentTruthy m.content &&
     decide (a.duplicateThreshold ≤
       (pre.filter (fun x => x.role == Role.assistant && x.content == m.content)).length))

/-- A memory whose three assistant messages repeat content "a" but whose last
message is a tool message: the claim predicts stuck, the code is not stuck. -/
def stuckCEAgent : Agent :=
  ⟨AgentState.IDLE, 0, 10,
    [Message.assistantMessage (some "a"), Message.assistantMessage (some "a"),
     Message.assistantMessage (some "a"), Message.toolMessage "b" "id1" "t" none],
    none, 2, [], none, none⟩

/-- C4 counterexample: is_stuck is NOT the predicate of the claim.  On a
memory ending in a tool message after three identical assistant messages the
claim-worded predicate holds (the most recent assistant message "a" recurs
twice among earlier assistant messages) yet is_stuck returns false, because
the source compares the content of the LAST message — of any role — against
earlier assistant messages. -/
theorem is_stuck_claim_counterexample :
    specIsStuck stuckCEAgent = true ∧ isStuck stuckCEAgent = false := by
  exact ⟨by decide, by decide⟩

lemma length_filter_reverse {α : Type} (p : α → Bool) (l : List α) :
    ((l.reverse).filter p).length = (l.filter p).length := by
  induction l with
  | nil => rfl
  | cons x t ih =>
    rw [List.reverse_cons, List.filter_append, List.length_append, ih,
      List.filter_cons]
    cases hp : p x <;> simp [hp]

/-- C4 amended: is_stuck returns true iff the memory holds at least 2
messages and the LAST message (of any role) has truthy content that equals
the content of at least duplicate_threshold of the earlier assistant
messages. -/
theorem is_stuck_characterization (a : Agent) :
    isStuck a = true ↔
      2 ≤ a.memory.length ∧ ∃ m, a.memory.getLast? = some m ∧
        contentTruthy m.content = true ∧
        a.duplicateThreshold ≤ ((a.memory.dropLast).filter
          (fun x => x.role == Role.assistant && x.content == m.content)).length := by
  unfold isStuck
  by_cases h2 : a.memory.length < 2
  · rw [if_pos h2]
    simp only [Bool.false_eq_true, false_iff]
    rintro ⟨hlen, -⟩
    omega
  · rw [if_neg h2]
    cases hlast : a.memory.getLast? with
    | none =>
      simp only [Bool.false_eq_true, false_iff]
      rintro ⟨-, m, hm, -⟩
      cases hm
    | some last =>
      dsimp only
      by_cases hct : contentTruthy last.content = true
      · rw [if_neg (by simp [hct])]
        rw [decide_eq_true_iff]
        constructor
        · intro hle
          exact ⟨by omega, last, rfl, hct, by rw [← length_filter_reverse]; exact hle⟩
        · rintro ⟨-, m, hm, -, hle⟩
          cases hm
          rw [length_filter_reverse]
          exact hle
      · rw [if_pos (by simp [hct])]
        simp only [Bool.false_eq_true, false_iff]
        rintro ⟨-, m, hm, hct2, -⟩
        cases hm
        exact hct hct2

/-- Python str.strip modelled on the character list: whitespace removed from
both ends. -/
def pyStrip (s : String) : String :=
  String.mk
    (((s.data.dropWhile Char.isWhitespace).reverse.dropWhile Char.isWhitespace).reverse)

/-- Splitting a character list at newline characters. -/
def splitOnNewline : List Char → List (List Char)
  | [] => [[]]
  | x :: xs =>
    if x = '\n' then [] :: splitOnNewline xs
    else
      match splitOnNewline xs with
      | [] => [[x]]
      | h :: t => (x :: h) :: t

/-- Python str.splitlines for newline-separated text: no trailing empty
segment is produced for a trailing newline, and the empty string has no
lines. -/
def pySplitlines (s : String) : List String :=
  if s.data.isEmpty then []
  else
    if ((splitOnNewline s.data).map String.mk).getLast? = some "" then
      ((splitOnNewline s.data).map String.mk).dropLast
    else (splitOnNewline s.data).map String.mk

/-- Index of the first element satisfying the predicate, if any. -/
def pyFindIdx (p : String → Bool) : List String → Option Nat
  | [] => none
  | x :: xs => if p x then some 0 else (pyFindIdx p xs).map (· + 1)

/-- Contiguous-sublist test on character lists. -/
def listContainsSub (sub : List Char) : List Char → Bool
  | [] => sub.isEmpty
  | x :: t => sub.isPrefixOf (x :: t) || listContainsSub sub t

/-- Python substring membership `sub in s`. -/
def containsSub (s sub : String) : Bool :=
  listContainsSub sub.data s.data

/-- The plan data stored per plan id by the PlanningTool: title, ordered step
texts and the parallel status strings (statuses are the PlanStepStatus values
of app/flow/base.py). -/
structure PlanData where
  title : String
  steps : List String
  stepStatuses : List String
  deriving DecidableEq, Repr

/-- PlanStepStatus.get_status_marks of app/flow/base.py combined with the
`.get(status, "[ ]")` lookup of _generate_plan_text_from_storage. -/
def statusMark (status : String) : String :=
  if status == "completed" then "[✓]"
  else if status == "in_progress" then "[→]"
  else if status == "blocked" then "[!]"
  else "[ ]"

/-- PlanningFlow._generate_plan_text_from_storage: the documented rendering
`计划: <title>`, blank line, `步骤:`, then one `<mark> <step>` line per step,
with a missing status defaulting to not_started. -/
def generatePlanText (p : PlanData) : String :=
  "计划: " ++ p.title ++ "\n\n步骤:\n" ++
    String.join (p.steps.enum.map (fun ix =>
      statusMark (p.stepStatuses.getD ix.1 "not_started") ++ " " ++ ix.2 ++ "\n"))

/-- PlanningAgent._get_current_step_index, as a function of the plan text it
parses: find the line whose strip() equals the English "Steps:", then return
the offset of the first following line containing "[ ]" or "[→]" (the
mark_step side effect through the PlanningTool happens only when such a line
is found and does not change the returned index). -/
def getCurrentStepIndexParse (plan : String) : Option Nat :=
  match pyFindIdx (fun line => pyStrip line == "Steps:") (pySplitlines plan) with
  | none => none
  | some si =>
    pyFindIdx (fun line => containsSub line "[ ]" || containsSub line "[→]")
      ((pySplitlines plan).drop (si + 1))

lemma pyFindIdx_eq_none_of_all_false (p : String → Bool) :
    ∀ l : List String, (∀ x ∈ l, p x = false) → pyFindIdx p l = none := by
  intro l
  induction l with
  | nil => intro _; rfl
  | cons x xs ih =>
    intro h
    unfold pyFindIdx
    rw [if_neg (by rw [h x (by simp)]; simp)]
    rw [ih (fun y hy => h y (by simp [hy]))]
    rfl

/-- C10: whenever the rendered plan text contains no line whose stripped
content is the English marker "Steps:", _get_current_step_index returns None,
so no step-execution tracking occurs; in particular this is the case for every
plan rendered in the documented format, whose header is the Chinese "步骤:"
(see the witness, which feeds a plan produced by
PlanningFlow._generate_plan_text_from_storage). -/
theorem get_current_step_index_needs_english_header (plan : String)
    (h : ∀ line ∈ pySplitlines plan, (pyStrip line == "Steps:") = false) :
    getCurrentStepIndexParse plan = none := by
  unfold getCurrentStepIndexParse
  rw [pyFindIdx_eq_none_of_all_false _ _ h]

/-- A concrete plan in the documented rendering. -/
def w10Plan : PlanData :=
  ⟨"示例计划", ["[SEARCH] 查找资料", "总结结果"], ["in_progress", "not_started"]⟩

/-- Witness for get_current_step_index_needs_english_header: the documented
rendering of w10Plan (header 步骤:) yields no tracked step index. -/
theorem get_current_step_index_needs_english_header_witness :
    getCurrentStepIndexParse (generatePlanText w10Plan) = none :=
  get_current_step_index_needs_english_header (generatePlanText w10Plan)
    (by decide)

/-- PlanStepStatus.get_active_statuses of app/flow/base.py. -/
def activeStatuses : List String := ["not_started", "in_progress"]

/-- Characters matched by the step-type pattern (upper-case letters and
underscore). -/
def isTagChar (c : Char) : Bool :=
  (decide ('A' ≤ c) && decide (c ≤ 'Z')) || c == '_'

/-- Scan for the first bracketed upper-case token, as re.search of the pattern
used by PlanningFlow._get_current_step_info: at each opening bracket, take the
longest run of tag characters; accept it when non-empty and followed by a
closing bracket, otherwise continue scanning after the opening bracket. -/
def findTypeTag : List Char → Option String
  | [] => none
  | c :: rest =>
    if c = '[' then
      match rest.span isTagChar with
      | (tag, rest2) =>
        match rest2 with
        | ']' :: _ => if tag.isEmpty then findTypeTag rest else some (String.mk tag)
        | _ => findTypeTag rest
    else findTypeTag rest

/-- The lower-cased step type extracted from a step text, if any. -/
def extractTypeTag (s : String) : Option String :=
  (findTypeTag s.data).map (fun t => String.mk (t.data.map Char.toLower))

/-- Modelled from the spec: the Plan Store operation mark_step (PlanningTool,
app/tool/planning.py, not among the provided sources) sets one step status by
index (spec section 4.6). -/
def markStep (p : PlanData) (i : Nat) (status : String) : PlanData :=
  { p with stepStatuses := p.stepStatuses.set i status }

/-- The scan of PlanningFlow._get_current_step_info: enumerate the steps, a
missing status defaults to not_started, and the first step whose status is
active is the current one. -/
def findActiveStep : List String → List String → Nat → Option (Nat × String)
  | [], _, _ => none
  | stepTxt :: rest, statuses, i =>
    if activeStatuses.contains (statuses.getD i "not_started") then some (i, stepTxt)
    else findActiveStep rest statuses (i + 1)

/-- PlanningFlow._get_current_step_info: resolve the current step (index,
text, optional type tag) and mark it in_progress; no active step means the
plan is complete. -/
def getCurrentStepInfo (p : PlanData) :
    Option (Nat × String × Option String) × PlanData :=
  match findActiveStep p.steps p.stepStatuses 0 with
  | none => (none, p)
  | some (i, text) =>
    (some (i, text, extractTypeTag text), markStep p i "in_progress")

/-- The step directive built by PlanningFlow._execute_step (an f-string inside
a triple-quoted literal, indentation included). -/
def stepPromptText (planStatus : String) (idx : Nat) (text : String) : String :=
  "\n        当前计划状态:\n        " ++ planStatus ++
  "\n\n        你的当前任务:\n        你现在正在处理步骤 " ++ toString idx ++
  ": \"" ++ text ++
  "\"\n\n        请使用适当的工具执行此步骤。完成后，提供你完成内容的摘要。\n        "

/-- The finalization message of PlanningFlow._finalize_plan. -/
def finalizePlanText (p : PlanData) : String :=
  "\n            计划完成！\n\n            最终计划状态:\n            " ++
  generatePlanText p ++
  "\n\n            所有步骤已完成。计划已成功执行。\n            "

/-- PlanningFlow._execute_step for one executor: render the plan (the
PlanningTool get_plan_text command is absent from the sources, so the storage
fallback _generate_plan_text_from_storage is used), run the step directive
through the executor lifecycle, and mark the step completed on success; an
exception from run() is caught and surfaced as the step result, leaving the
status untouched. -/
def executeStep (step : StepFn) (p : PlanData) (idx : Nat) (text : String)
    (ex : Agent) : PlanData × Agent × String :=
  match run step (some (stepPromptText (generatePlanText p) idx text)) ex with
  | Except.ok (ex2, result) => (markStep p idx "completed", ex2, result)
  | Except.error (e, ex2) => (p, ex2, "步骤执行失败: " ++ pyStr e)

/-- The while-True loop of PlanningFlow.execute, specialized to a flow holding
a single executor agent (get_executor then always returns it, whatever the
step type).  Each iteration resolves the current step, executes it, appends
the step result, and breaks early when the executor state reads FINISHED;
plan completion appends the finalization message.  Fuel bounds the number of
iterations; each non-final iteration marks a step in_progress, so
steps.length + 1 fuel is exact for terminating runs. -/
def flowExecuteLoop (step : StepFn) :
    Nat → PlanData → Agent → String → PlanData × Agent × String
  | 0, p, ex, acc => (p, ex, acc)
  | fuel + 1, p, ex, acc =>
    match getCurrentStepInfo p with
    | (none, p2) => (p2, ex, acc ++ finalizePlanText p2)
    | (some (i, text, _), p2) =>
      match executeStep step p2 i text ex with
      | (p3, ex2, stepResult) =>
        if ex2.state = AgentState.FINISHED then (p3, ex2, acc ++ stepResult ++ "\n")
        else flowExecuteLoop step fuel p3 ex2 (acc ++ stepResult ++ "\n")

/-- A step that simulates a dispatched terminate special tool: the agent state
becomes FINISHED (ToolCallAgent._handle_special_tool) and the step returns the
observed output. -/
def termStepFn : StepFn := fun b =>
  Except.ok ({ b with state := AgentState.FINISHED },
    "观察到命令 `terminate` 执行的输出:\n交互已完成")

/-- A two-step plan, both steps still to do. -/
def c3Plan : PlanData :=
  ⟨"月球旅行", ["第一步", "第二步"], ["not_started", "not_started"]⟩

/-- The single executor of the flow, fresh with a budget of 5. -/
def c3Executor : Agent :=
  ⟨AgentState.IDLE, 0, 5, [], none, 2, [], none, none⟩

/-- The executor object right after its first run() under the flow (the run in
which terminate fired). -/
def c3AfterFirstRun : Agent :=
  match run termStepFn
      (some (stepPromptText (generatePlanText (markStep c3Plan 0 "in_progress"))
        0 "第一步")) c3Executor with
  | Except.ok (b, _) => b
  | Except.error (_, b) => b

/-- C3 evidence: honoring the terminate signal by the flow loop never happens
after a normal run.  The executor reaches FINISHED during plan step 1 (the
terminate special tool fires on its first step invocation), yet after run()
returns, BaseAgent.state_context has already restored the state to IDLE, so
the flow check `executor.state == AgentState.FINISHED` is false and the loop
resolves and executes plan step 2 as well: both statuses end completed, and
the executor performed step invocations in two separate runs (counter at 2).
The claimed early exit with steps remaining does not occur. -/
theorem planning_flow_no_early_exit_on_terminate :
    c3AfterFirstRun.state = AgentState.IDLE ∧
    (flowExecuteLoop termStepFn 3 c3Plan c3Executor "").1.stepStatuses =
      ["completed", "completed"] ∧
    (flowExecuteLoop termStepFn 3 c3Plan c3Executor "").2.1.currentStep = 2 := by
  refine ⟨?_, ?_, ?_⟩ <;> decide

/-- The keyword-argument payload handed to a tool.  JSON values are abstracted
to strings; no claim depends on the payload structure, only on whether the
payload parses. -/
structure Args where
  pairs : List (String × String)
  deriving DecidableEq, Repr

/-- ToolResult of app/tool/base.py: output, error, optional image, optional
system note, all optional. -/
structure ToolResult where
  output : Option String
  error : Option String
  base64Image : Option String
  system : Option String
  deriving DecidableEq, Repr

/-- ToolResult.__bool__: any truthy field makes the result truthy. -/
def truthyResult (r : ToolResult) : Bool :=
  contentTruthy r.output || contentTruthy r.error ||
  contentTruthy r.base64Image || contentTruthy r.system

/-- ToolResult.__str__ wrapped in Python str(): a truthy error renders as the
error line; otherwise __str__ returns self.output, and when output is unset
str() raises TypeError (modelled as none). -/
def strToolResult (r : ToolResult) : Option String :=
  if contentTruthy r.error then some ("错误: " ++ pyStrOfOpt r.error) else r.output

/-- A tool implementation: awaiting tool(**kwargs) either returns a ToolResult
or raises (ToolError for tool-declared failures, anything else for argument
binding errors and unexpected bugs). -/
def Tool : Type :=
  Args → Except PyError ToolResult

/-- ToolFailure(error=msg) of app/tool/base.py. -/
def mkToolFailure (msg : String) : ToolResult :=
  ⟨none, some msg, none, none⟩

/-- Lookup in tool_map: the dict comprehension keeps the LAST tool registered
under a name, hence the reversed search. -/
def lookupTool (tools : List (String × Tool)) (name : String) : Option Tool :=
  ((tools.reverse).find? (fun pr => pr.1 == name)).map (fun pr => pr.2)

/-- ToolCollection.execute: an unknown name yields a ToolFailure; a ToolError
raised by the tool is caught and converted to a ToolFailure; any other
exception propagates to the caller. -/
def tcExecute (tools : List (String × Tool)) (name : String) (input : Args) :
    Except PyError ToolResult :=
  match lookupTool tools name with
  | none => Except.ok (mkToolFailure ("工具 " ++ name ++ " 无效"))
  | some tool =>
    match tool input with
    | Except.ok r => Except.ok r
    | Except.error e =>
      match e with
      | PyError.toolError m => Except.ok (mkToolFailure m)
      | _ => Except.error e

/-- ToolCallAgent._is_special_tool: case-insensitive membership in the
special-tool name list. -/
def isSpecialTool (special : List String) (name : String) : Bool :=
  (special.map (fun n => String.mk (n.data.map Char.toLower))).contains
    (String.mk (name.data.map Char.toLower))

/-- ToolCallAgent._handle_special_tool with the default always-true
_should_finish_execution: a special tool moves the agent to FINISHED. -/
def handleSpecialTool (special : List String) (name : String) (a : Agent) : Agent :=
  if isSpecialTool special name then { a with state := AgentState.FINISHED } else a

/-- `command.function.arguments or "\x7b\x7d"`: a missing or empty payload
parses as the empty JSON object. -/
def argStr (f : ToolCallFunction) : String :=
  match f.arguments with
  | none => "\x7b\x7d"
  | some s => if s.isEmpty then "\x7b\x7d" else s

/-- The CPython message of the TypeError raised when __str__ returns None. -/
def strNoneTypeError : String := "__str__ returned non-string (type NoneType)"

/-- ToolCallAgent.execute_tool: fails closed.  A missing or malformed call
structure, an unknown tool name, an unparsable argument payload and any
exception out of the dispatch each return an error-prefixed string; a
successful dispatch runs the special-tool hook, stores an image attachment on
the agent carry field, and formats the observation — where rendering a truthy
result whose error and output are both unset raises the __str__ TypeError,
which the blanket except converts into an error-prefixed string as well.
`parse` is the external json.loads restricted to objects (none for both
invalid JSON and the resulting JSONDecodeError). -/
def executeTool (parse : String → Option Args) (tools : List (String × Tool))
    (special : List String) (cmd : Option ToolCall) (a : Agent) : Agent × String :=
  match cmd with
  | none => (a, "错误: 无效的命令格式")
  | some c =>
    match c.function with
    | none => (a, "错误: 无效的命令格式")
    | some f =>
      if f.name.isEmpty then (a, "错误: 无效的命令格式")
      else if (lookupTool tools f.name).isNone then
        (a, "错误: 未知工具 \x27" ++ f.name ++ "\x27")
      else
        match parse (argStr f) with
        | none => (a, "错误: 解析 " ++ f.name ++ " 的参数时出错: 无效的JSON格式")
        | some args =>
          match tcExecute tools f.name args with
          | Except.error e =>
            (a, "错误: ⚠️ 工具 \x27" ++ f.name ++ "\x27 遇到了问题: " ++ pyStr e)
          | Except.ok result =>
            let a1 := handleSpecialTool special f.name a
            let a2 :=
              if contentTruthy result.base64Image then
                { a1 with currentBase64Image := result.base64Image }
              else a1
            if truthyResult result then
              match strToolResult result with
              | some s => (a2, "观察到命令 `" ++ f.name ++ "` 执行的输出:\n" ++ s)
              | none =>
                (a2, "错误: ⚠️ 工具 \x27" ++ f.name ++ "\x27 遇到了问题: " ++
                  strNoneTypeError)
            else (a2, "命令 `" ++ f.name ++ "` 完成，无输出")

/-- C9: ToolCollection.execute returns a ToolFailure — it does not raise —
when the named tool is absent or when the tool raises the dedicated
ToolError, while any other exception raised by the tool call (argument
binding included) propagates; a normal result is passed through. -/
theorem tool_collection_execute_error_policy (tools : List (String × Tool))
    (name : String) (input : Args) :
    (lookupTool tools name = none →
      tcExecute tools name input =
        Except.ok (mkToolFailure ("工具 " ++ name ++ " 无效"))) ∧
    (∀ tool m, lookupTool tools name = some tool →
      tool input = Except.error (PyError.toolError m) →
      tcExecute tools name input = Except.ok (mkToolFailure m)) ∧
    (∀ tool e, lookupTool tools name = some tool →
      tool input = Except.error e → (∀ m, e ≠ PyError.toolError m) →
      tcExecute tools name input = Except.error e) ∧
    (∀ tool r, lookupTool tools name = some tool →
      tool input = Except.ok r → tcExecute tools name input = Except.ok r) := by
  refine ⟨?_, ?_, ?_, ?_⟩
  · intro h
    unfold tcExecute
    rw [h]
  · intro tool m h ht
    unfold tcExecute
    rw [h]
    dsimp only
    rw [ht]
  · intro tool e h ht hne
    unfold tcExecute
    rw [h]
    dsimp only
    rw [ht]
    cases e with
    | toolError m => exact absurd rfl (hne m)
    | runtimeError m => rfl
    | valueError m => rfl
    | jsonDecodeError m => rfl
    | typeError m => rfl
    | tokenLimitExceeded m => rfl
    | retryError c m => rfl
    | other m => rfl
  · intro tool r h ht
    unfold tcExecute
    rw [h]
    dsimp only
    rw [ht]

/-- A concrete tool raising the dedicated ToolError. -/
def w9FailTool : Tool := fun _ => Except.error (PyError.toolError "磁盘已满")

/-- A concrete tool raising an unrelated exception. -/
def w9CrashTool : Tool := fun _ => Except.error (PyError.other "崩溃")

/-- A concrete two-tool collection. -/
def w9Tools : List (String × Tool) := [("t", w9FailTool), ("u", w9CrashTool)]

/-- Witness for tool_collection_execute_error_policy: absent name, ToolError
and unrelated exception, each at a concrete collection. -/
theorem tool_collection_execute_error_policy_witness :
    tcExecute w9Tools "x" ⟨[]⟩ =
      Except.ok (mkToolFailure ("工具 " ++ "x" ++ " 无效")) ∧
    tcExecute w9Tools "t" ⟨[]⟩ = Except.ok (mkToolFailure "磁盘已满") ∧
    tcExecute w9Tools "u" ⟨[]⟩ = Except.error (PyError.other "崩溃") :=
  ⟨(tool_collection_execute_error_policy w9Tools "x" ⟨[]⟩).1 rfl,
   (tool_collection_execute_error_policy w9Tools "t" ⟨[]⟩).2.1 w9FailTool
     "磁盘已满" rfl rfl,
   (tool_collection_execute_error_policy w9Tools "u" ⟨[]⟩).2.2.1 w9CrashTool
     (PyError.other "崩溃") rfl rfl
     (fun m h => by cases h)⟩

lemma data_append (s t : String) : (s ++ t).data = s.data ++ t.data := by
  cases s
  cases t
  rfl

lemma strAssoc (x y z : String) : (x ++ y) ++ z = x ++ (y ++ z) := by
  cases x
  cases y
  cases z
  apply congrArg String.mk
  exact List.append_assoc _ _ _

lemma string_ne_append_of_head (s q t : String) (hq : q.data ≠ [])
    (hh : s.data.head? ≠ q.data.head?) : s ≠ q ++ t := by
  intro he
  apply hh
  rw [he, data_append]
  cases hd : q.data with
  | nil => exact absurd hd hq
  | cons c cs => rfl

/-- C5 amended: execute_tool always returns a string and fails closed — a
missing/malformed call structure, an unknown tool name, an unparsable
argument payload and any exception out of the dispatch each yield the
error-prefixed text of the corresponding handler; a successful dispatch whose
result renders yields the observed-output string of that rendering, a
successful dispatch with a falsy result yields the completed-no-output
string, and ONLY the carve-out — a truthy result with both error and output
unset, whose rendering raises the __str__ TypeError — yields an
error-prefixed string for a successful dispatch (the counterexample shows the
repository's own bash restart result takes that branch, against the original
claim's success clause); finally, every returned string is an error-prefixed
string, an observed-output string, or the completed-no-output string. -/
theorem execute_tool_fails_closed (parse : String → Option Args)
    (tools : List (String × Tool)) (special : List String) (a : Agent) :
    (executeTool parse tools special none a = (a, "错误: 无效的命令格式")) ∧
    (∀ c : ToolCall, c.function = none →
      executeTool parse tools special (some c) a = (a, "错误: 无效的命令格式")) ∧
    (∀ c f, c.function = some f → f.name.isEmpty = true →
      executeTool parse tools special (some c) a = (a, "错误: 无效的命令格式")) ∧
    (∀ c f, c.function = some f → f.name.isEmpty = false →
      lookupTool tools f.name = none →
      executeTool parse tools special (some c) a =
        (a, "错误: 未知工具 \x27" ++ f.name ++ "\x27")) ∧
    (∀ c f, c.function = some f → f.name.isEmpty = false →
      (lookupTool tools f.name).isNone = false → parse (argStr f) = none →
      executeTool parse tools special (some c) a =
        (a, "错误: 解析 " ++ f.name ++ " 的参数时出错: 无效的JSON格式")) ∧
    (∀ c f args e, c.function = some f → f.name.isEmpty = false →
      (lookupTool tools f.name).isNone = false → parse (argStr f) = some args →
      tcExecute tools f.name args = Except.error e →
      executeTool parse tools special (some c) a =
        (a, "错误: ⚠️ 工具 \x27" ++ f.name ++ "\x27 遇到了问题: " ++ pyStr e)) ∧
    (∀ c f args result s2, c.function = some f → f.name.isEmpty = false →
      (lookupTool tools f.name).isNone = false → parse (argStr f) = some args →
      tcExecute tools f.name args = Except.ok result → truthyResult result = true →
      strToolResult result = some s2 →
      (executeTool parse tools special (some c) a).2 =
        "观察到命令 `" ++ f.name ++ "` 执行的输出:\n" ++ s2) ∧
    (∀ c f args result, c.function = some f → f.name.isEmpty = false →
      (lookupTool tools f.name).isNone = false → parse (argStr f) = some args →
      tcExecute tools f.name args = Except.ok result → truthyResult result = false →
      (executeTool parse tools special (some c) a).2 =
        "命令 `" ++ f.name ++ "` 完成，无输出") ∧
    (∀ c f args result, c.function = some f → f.name.isEmpty = false →
      (lookupTool tools f.name).isNone = false → parse (argStr f) = some args →
      tcExecute tools f.name args = Except.ok result → truthyResult result = true →
      strToolResult result = none →
      (executeTool parse tools special (some c) a).2 =
        "错误: ⚠️ 工具 \x27" ++ f.name ++ "\x27 遇到了问题: " ++ strNoneTypeError) ∧
    (∀ cmd, (∃ t, (executeTool parse tools special cmd a).2 = "错误: " ++ t) ∨
      (∃ n t, (executeTool parse tools special cmd a).2 =
        "观察到命令 `" ++ n ++ "` 执行的输出:\n" ++ t) ∨
      (∃ n, (executeTool parse tools special cmd a).2 =
        "命令 `" ++ n ++ "` 完成，无输出")) := by
  refine ⟨rfl, ?_, ?_, ?_, ?_, ?_, ?_, ?_, ?_, ?_⟩
  · intro c hc
    unfold executeTool
    dsimp only
    rw [hc]
  · intro c f hc hn
    unfold executeTool
    dsimp only
    rw [hc]
    dsimp only
    rw [if_pos hn]
  · intro c f hc hn hlk
    unfold executeTool
    dsimp only
    rw [hc]
    dsimp only
    rw [if_neg (by simp [hn]), if_pos (by simp [hlk])]
  · intro c f hc hn hlk hp
    unfold executeTool
    dsimp only
    rw [hc]
    dsimp only
    rw [if_neg (by simp [hn]), if_neg (by simp [hlk]), hp]
  · intro c f args e hc hn hlk hp htc
    unfold executeTool
    dsimp only
    rw [hc]
    dsimp only
    rw [if_neg (by simp [hn]), if_neg (by simp [hlk]), hp]
    dsimp only
    rw [htc]
  · intro c f args result s2 hc hn hlk hp htc htr hsr
    unfold executeTool
    dsimp only
    rw [hc]
    dsimp only
    rw [if_neg (by simp [hn]), if_neg (by simp [hlk]), hp]
    dsimp only
    rw [htc]
    dsimp only
    rw [if_pos htr, hsr]
  · intro c f args result hc hn hlk hp htc htr
    unfold executeTool
    dsimp only
    rw [hc]
    dsimp only
    rw [if_neg (by simp [hn]), if_neg (by simp [hlk]), hp]
    dsimp only
    rw [htc]
    dsimp only
    rw [if_neg (by simp [htr])]
  · intro c f args result hc hn hlk hp htc htr hsr
    unfold executeTool
    dsimp only
    rw [hc]
    dsimp only
    rw [if_neg (by simp [hn]), if_neg (by simp [hlk]), hp]
    dsimp only
    rw [htc]
    dsimp only
    rw [if_pos htr, hsr]
  · intro cmd
    cases cmd with
    | none => exact Or.inl ⟨"无效的命令格式", rfl⟩
    | some c =>
      unfold executeTool
      dsimp only
      cases hf : c.function with
      | none => exact Or.inl ⟨"无效的命令格式", rfl⟩
      | some f =>
        dsimp only
        by_cases hn : f.name.isEmpty = true
        · rw [if_pos hn]
          exact Or.inl ⟨"无效的命令格式", rfl⟩
        · rw [if_neg hn]
          by_cases hlk : (lookupTool tools f.name).isNone = true
          · rw [if_pos hlk]
            refine Or.inl ⟨"未知工具 \x27" ++ (f.name ++ "\x27"), ?_⟩
            rw [show ("错误: 未知工具 \x27" : String) = "错误: " ++ "未知工具 \x27" from rfl]
            simp only [strAssoc]
          · rw [if_neg hlk]
            cases hp : parse (argStr f) with
            | none =>
              refine Or.inl ⟨"解析 " ++ (f.name ++ " 的参数时出错: 无效的JSON格式"), ?_⟩
              rw [show ("错误: 解析 " : String) = "错误: " ++ "解析 " from rfl]
              simp only [strAssoc]
            | some args =>
              dsimp only
              cases htc : tcExecute tools f.name args with
              | error e =>
                refine Or.inl ⟨"⚠️ 工具 \x27" ++ (f.name ++ ("\x27 遇到了问题: " ++ pyStr e)), ?_⟩
                rw [show ("错误: ⚠️ 工具 \x27" : String) = "错误: " ++ "⚠️ 工具 \x27" from rfl]
                simp only [strAssoc]
              | ok result =>
                dsimp only
                by_cases htr : truthyResult result = true
                · rw [if_pos htr]
                  cases hsr : strToolResult result with
                  | some s2 =>
                    exact Or.inr (Or.inl ⟨f.name, s2, rfl⟩)
                  | none =>
                    refine Or.inl ⟨"⚠️ 工具 \x27" ++ (f.name ++ ("\x27 遇到了问题: " ++ strNoneTypeError)), ?_⟩
                    rw [show ("错误: ⚠️ 工具 \x27" : String) = "错误: " ++ "⚠️ 工具 \x27" from rfl]
                    simp only [strAssoc]
                · rw [if_neg htr]
                  exact Or.inr (Or.inr ⟨f.name, rfl⟩)

/-- The bash restart result of app/tool/bash.py: only the system field is
set. -/
def ceRestartResult : ToolResult := ⟨none, none, none, some "工具已重新启动。"⟩

/-- A tool behaving as bash with restart=True: a successful dispatch whose
result has neither output nor error. -/
def ceBashTool : Tool := fun _ => Except.ok ceRestartResult

/-- A collection holding that tool under the name bash. -/
def ceTools : List (String × Tool) := [("bash", ceBashTool)]

/-- An argument parser that accepts the payload (json.loads succeeding). -/
def ceParse : String → Option Args := fun _ => some ⟨[]⟩

/-- The dispatched call. -/
def ceCmd : ToolCall := ⟨"call_1", some ⟨"bash", some "restart"⟩⟩

/-- An idle agent issuing the call. -/
def ceAgent : Agent := ⟨AgentState.IDLE, 0, 3, [], none, 2, [], none, none⟩

/-- C5 counterexample to the claim's success clause: dispatching bash restart
succeeds (ToolCollection.execute returns the result normally), yet
execute_tool returns an error-prefixed string — rendering the truthy result
whose output and error are both unset raises the __str__ TypeError, caught by
the blanket handler — so a successful dispatch yields neither an observed
output string nor the completed-no-output string. -/
theorem execute_tool_success_clause_counterexample :
    tcExecute ceTools "bash" ⟨[]⟩ = Except.ok ceRestartResult ∧
    (executeTool ceParse ceTools [] (some ceCmd) ceAgent).2 =
      "错误: ⚠️ 工具 \x27bash\x27 遇到了问题: __str__ returned non-string (type NoneType)" ∧
    (∀ t, (executeTool ceParse ceTools [] (some ceCmd) ceAgent).2 ≠
      "观察到命令 `bash` 执行的输出:\n" ++ t) ∧
    (executeTool ceParse ceTools [] (some ceCmd) ceAgent).2 ≠
      "命令 `bash` 完成，无输出" := by
  refine ⟨rfl, by decide, ?_, by decide⟩
  intro t
  apply string_ne_append_of_head
  · decide
  · decide

/-- A parser accepting exactly the payload "good". -/
def w5Parse : String → Option Args := fun s => if s == "good" then some ⟨[]⟩ else none

/-- A tool raising an unexpected exception. -/
def w5Tool : Tool := fun _ => Except.error (PyError.other "爆炸")

/-- A tool returning a normal output. -/
def w5HelloTool : Tool := fun _ => Except.ok ⟨some "你好", none, none, none⟩

/-- A tool returning an entirely empty (falsy) result. -/
def w5QuietTool : Tool := fun _ => Except.ok ⟨none, none, none, none⟩

/-- A three-tool collection. -/
def w5Tools : List (String × Tool) :=
  [("echo", w5Tool), ("hello", w5HelloTool), ("quiet", w5QuietTool)]

/-- The agent issuing the calls. -/
def w5Agent : Agent := ⟨AgentState.IDLE, 0, 3, [], none, 2, [], none, none⟩

/-- A call naming an unregistered tool. -/
def w5CmdUnknown : ToolCall := ⟨"c1", some ⟨"nope", some "good"⟩⟩

/-- A call whose payload does not parse. -/
def w5CmdBadJson : ToolCall := ⟨"c2", some ⟨"echo", some "bad"⟩⟩

/-- A call whose tool raises. -/
def w5CmdCrash : ToolCall := ⟨"c3", some ⟨"echo", some "good"⟩⟩

/-- A call whose dispatch succeeds with output. -/
def w5CmdHello : ToolCall := ⟨"c4", some ⟨"hello", some "good"⟩⟩

/-- A call whose dispatch succeeds with a falsy result. -/
def w5CmdQuiet : ToolCall := ⟨"c5", some ⟨"quiet", some "good"⟩⟩

/-- Witness for execute_tool_fails_closed: the malformed-call, unknown-tool,
invalid-payload and tool-exception handlers, and both success outcomes (an
observed-output string and the completed-no-output string), at concrete
inputs. -/
theorem execute_tool_fails_closed_witness :
    executeTool w5Parse w5Tools [] none w5Agent = (w5Agent, "错误: 无效的命令格式") ∧
    executeTool w5Parse w5Tools [] (some w5CmdUnknown) w5Agent =
      (w5Agent, "错误: 未知工具 \x27" ++ "nope" ++ "\x27") ∧
    executeTool w5Parse w5Tools [] (some w5CmdBadJson) w5Agent =
      (w5Agent, "错误: 解析 " ++ "echo" ++ " 的参数时出错: 无效的JSON格式") ∧
    executeTool w5Parse w5Tools [] (some w5CmdCrash) w5Agent =
      (w5Agent, "错误: ⚠️ 工具 \x27" ++ "echo" ++ "\x27 遇到了问题: " ++
        pyStr (PyError.other "爆炸")) ∧
    (executeTool w5Parse w5Tools [] (some w5CmdHello) w5Agent).2 =
      "观察到命令 `" ++ "hello" ++ "` 执行的输出:\n" ++ "你好" ∧
    (executeTool w5Parse w5Tools [] (some w5CmdQuiet) w5Agent).2 =
      "命令 `" ++ "quiet" ++ "` 完成，无输出" :=
  ⟨(execute_tool_fails_closed w5Parse w5Tools [] w5Agent).1,
   (execute_tool_fails_closed w5Parse w5Tools [] w5Agent).2.2.2.1 w5CmdUnknown
     ⟨"nope", some "good"⟩ rfl rfl rfl,
   (execute_tool_fails_closed w5Parse w5Tools [] w5Agent).2.2.2.2.1 w5CmdBadJson
     ⟨"echo", some "bad"⟩ rfl rfl rfl rfl,
   (execute_tool_fails_closed w5Parse w5Tools [] w5Agent).2.2.2.2.2.1 w5CmdCrash
     ⟨"echo", some "good"⟩ ⟨[]⟩ (PyError.other "爆炸") rfl rfl rfl rfl rfl,
   (execute_tool_fails_closed w5Parse w5Tools [] w5Agent).2.2.2.2.2.2.1 w5CmdHello
     ⟨"hello", some "good"⟩ ⟨[]⟩ ⟨some "你好", none, none, none⟩ "你好"
     rfl rfl rfl rfl rfl rfl rfl,
   (execute_tool_fails_closed w5Parse w5Tools [] w5Agent).2.2.2.2.2.2.2.1 w5CmdQuiet
     ⟨"quiet", some "good"⟩ ⟨[]⟩ ⟨none, none, none, none⟩
     rfl rfl rfl rfl rfl rfl⟩

/-- The tool-choice policy of the model query (AUTO, REQUIRED, NONE). -/
inductive ToolChoice where
  | none
  | auto
  | required
  deriving DecidableEq, Repr

/-- The model client response: optional content plus requested tool calls. -/
structure LLMResponse where
  content : Option String
  toolCalls : List ToolCall
  deriving DecidableEq, Repr

/-- The check `hasattr(e, "__cause__") and isinstance(e.__cause__,
TokenLimitExceeded)` (only the RetryError wrapper carries a cause in this
model). -/
def isTokenLimitCause : PyError → Bool
  | PyError.retryError (some (PyError.tokenLimitExceeded _)) _ => true
  | _ => false

/-- str(e.__cause__) for a wrapped token-limit failure. -/
def causeMsg : PyError → String
  | PyError.retryError (some (PyError.tokenLimitExceeded m)) _ => m
  | _ => ""

/-- The `if self.next_step_prompt:` prologue of ToolCallAgent.think: a truthy
prompt is appended to memory as a user message on every think call. -/
def applyPrompt (a : Agent) : Agent :=
  if contentTruthy a.nextStepPrompt then
    { a with memory := a.memory ++ [Message.userMessage (pyStrOfOpt a.nextStepPrompt)] }
  else a

/-- The response interpretation of ToolCallAgent.think (the region inside its
second try block; in this pure model interpretation cannot itself raise, so
the blanket except-to-false of the source is unreachable): policy NONE keeps
only content; otherwise the assistant message is recorded and the
REQUIRED/AUTO/other rules decide should_act. -/
def thinkInterpret (choice : ToolChoice) (resp : LLMResponse) (a1 : Agent) :
    Except (PyError × Agent) (Agent × Bool) :=
  match choice with
  | ToolChoice.none =>
    if contentTruthy resp.content then
      Except.ok ({ a1 with memory := a1.memory ++ [Message.assistantMessage resp.content] },
        true)
    else Except.ok (a1, false)
  | _ =>
    let amsg := if a1.toolCalls.isEmpty then Message.assistantMessage resp.content
                else Message.fromToolCalls resp.content a1.toolCalls
    let a2 := { a1 with memory := a1.memory ++ [amsg] }
    if choice == ToolChoice.required && a2.toolCalls.isEmpty then Except.ok (a2, true)
    else if choice == ToolChoice.auto && a2.toolCalls.isEmpty then
      Except.ok (a2, contentTruthy resp.content)
    else Except.ok (a2, !a2.toolCalls.isEmpty)

/-- ToolCallAgent.think: append the next-step prompt, query the model (an
external collaborator passed as `ask`), re-raise ValueError directly, convert
a wrapped token-limit failure into a recorded assistant message, state
FINISHED and should_act = false, re-raise anything else, and otherwise store
the returned tool calls and interpret the response. -/
def think (ask : List Message → Except PyError LLMResponse) (choice : ToolChoice)
    (a : Agent) : Except (PyError × Agent) (Agent × Bool) :=
  match ask (applyPrompt a).memory with
  | Except.error e =>
    match e with
    | PyError.valueError m => Except.error (PyError.valueError m, applyPrompt a)
    | _ =>
      if isTokenLimitCause e then
        Except.ok ({ applyPrompt a with
          memory := (applyPrompt a).memory ++
            [Message.assistantMessage
              (some ("达到最大令牌限制，无法继续执行: " ++ causeMsg e))],
          state := AgentState.FINISHED }, false)
      else Except.error (e, applyPrompt a)
  | Except.ok resp =>
    thinkInterpret choice resp { applyPrompt a with toolCalls := resp.toolCalls }

/-- Python string slicing result[:n] by characters. -/
def pyTake (s : String) (n : Nat) : String := String.mk (s.data.take n)

/-- The per-call loop of ToolCallAgent.act: reset the image carry, dispatch
through execute_tool, truncate when max_observe is set (a zero value is falsy
and truncates nothing), append the tool message and accumulate; reading
command.function.name for the tool message raises when function is absent. -/
def actLoop (parse : String → Option Args) (tools : List (String × Tool))
    (special : List String) :
    List ToolCall → Agent → List String → Except (PyError × Agent) (Agent × String)
  | [], a, results => Except.ok (a, String.intercalate "\n\n" results)
  | cmd :: rest, a, results =>
    match executeTool parse tools special (some cmd) { a with currentBase64Image := none } with
    | (a1, result) =>
      let result2 := match a1.maxObserve with
        | some n => if n == 0 then result else pyTake result n
        | none => result
      match cmd.function with
      | none => Except.error (PyError.other "AttributeError", a1)
      | some f =>
        actLoop parse tools special rest
          { a1 with memory := a1.memory ++
            [Message.toolMessage result2 cmd.id f.name a1.currentBase64Image] }
          (results ++ [result2])

/-- ToolCallAgent.act: no pending calls raises the tool-call-required
ValueError under policy REQUIRED and otherwise echoes the last message
content (or the nothing-to-execute sentinel); pending calls are dispatched in
order. -/
def act (parse : String → Option Args) (tools : List (String × Tool))
    (special : List String) (choice : ToolChoice) (a : Agent) :
    Except (PyError × Agent) (Agent × String) :=
  if a.toolCalls.isEmpty then
    if choice == ToolChoice.required then
      Except.error (PyError.valueError "需要工具调用但未提供", a)
    else
      match a.memory.getLast? with
      | none => Except.error (PyError.other "list index out of range", a)
      | some m =>
        Except.ok (a, if contentTruthy m.content then pyStrOfOpt m.content
          else "没有内容或命令可执行")
  else actLoop parse tools special a.toolCalls a []

/-- ReActAgent.step: think, then the fixed no-action message or act. -/
def reactStep (thinkFn : Agent → Except (PyError × Agent) (Agent × Bool))
    (actFn : Agent → Except (PyError × Agent) (Agent × String)) : StepFn := fun a =>
  match thinkFn a with
  | Except.error e => Except.error e
  | Except.ok (a1, shouldAct) =>
    if shouldAct then actFn a1 else Except.ok (a1, "思考完成 - 无需行动")

/-- A model query that always fails with a RetryError whose cause is
TokenLimitExceeded. -/
def tokenLimitAsk (msg : String) : List Message → Except PyError LLMResponse :=
  fun _ =>
    Except.error (PyError.retryError (some (PyError.tokenLimitExceeded msg)) "RetryError")

/-- The agent state think produces on a wrapped token-limit failure: prompt
appended, the limit recorded as an assistant message, state FINISHED. -/
def tokenLimitAgent (msg : String) (b : Agent) : Agent :=
  { applyPrompt b with
    memory := (applyPrompt b).memory ++
      [Message.assistantMessage (some ("达到最大令牌限制，无法继续执行: " ++ msg))],
    state := AgentState.FINISHED }

lemma applyPrompt_currentStep (a : Agent) :
    (applyPrompt a).currentStep = a.currentStep := by
  unfold applyPrompt
  split <;> rfl

lemma applyPrompt_maxSteps (a : Agent) :
    (applyPrompt a).maxSteps = a.maxSteps := by
  unfold applyPrompt
  split <;> rfl

lemma tokenLimitAgent_currentStep (msg : String) (b : Agent) :
    (tokenLimitAgent msg b).currentStep = b.currentStep := by
  show (applyPrompt b).currentStep = b.currentStep
  exact applyPrompt_currentStep b

lemma tokenLimitAgent_maxSteps (msg : String) (b : Agent) :
    (tokenLimitAgent msg b).maxSteps = b.maxSteps := by
  show (applyPrompt b).maxSteps = b.maxSteps
  exact applyPrompt_maxSteps b

/-- One finishing step from a RUNNING agent with a zero counter: the loop
body returns after a single invocation with the counter at 1 and the single
step line. -/
lemma runBody_one_finishing_step (step : StepFn) (A : Agent) (B : Agent → Agent)
    (r : String)
    (hstep : ∀ b, step b = Except.ok (B b, r))
    (hBst : ∀ b, (B b).state = AgentState.FINISHED)
    (hBcs : ∀ b, (B b).currentStep = b.currentStep)
    (hBms : ∀ b, (B b).maxSteps = b.maxSteps)
    (hcs : A.currentStep = 0) (hms : 1 < A.maxSteps)
    (hst : A.state = AgentState.RUNNING) :
    runBody step A =
      Except.ok (stuckProc (B { A with currentStep := A.currentStep + 1 }),
        ["步骤 1: " ++ r]) ∧
    (stuckProc (B { A with currentStep := A.currentStep + 1 })).currentStep = 1 := by
  have hb2st : (stuckProc (B { A with currentStep := A.currentStep + 1 })).state =
      AgentState.FINISHED := by
    rw [stuckProc_state]; exact hBst _
  have hb2cs : (stuckProc (B { A with currentStep := A.currentStep + 1 })).currentStep = 1 := by
    rw [stuckProc_currentStep, hBcs]
    show A.currentStep + 1 = 1
    omega
  have hb2ms : (stuckProc (B { A with currentStep := A.currentStep + 1 })).maxSteps =
      A.maxSteps := by
    rw [stuckProc_maxSteps, hBms]
  obtain ⟨f, hf⟩ : ∃ f, A.maxSteps - A.currentStep = f + 1 :=
    ⟨A.maxSteps - A.currentStep - 1, by omega⟩
  have hloop : runLoop step (A.maxSteps - A.currentStep) A [] =
      Except.ok (stuckProc (B { A with currentStep := A.currentStep + 1 }),
        [] ++ ["步骤 " ++
          toString (stuckProc (B { A with currentStep := A.currentStep + 1 })).currentStep ++
          ": " ++ r]) := by
    rw [hf, runLoop_succ, if_pos ⟨by omega, by rw [hst]; simp⟩, hstep _]
    exact runLoop_stops_when_finished _ f _ _ hb2st
  refine ⟨?_, hb2cs⟩
  unfold runBody
  rw [hloop]
  dsimp only
  rw [if_neg (by omega)]
  rw [hb2cs]
  rfl

/-- Running such a step from IDLE: run() returns normally with the single
step line, state restored to IDLE, counter left at 1 (no reset). -/
lemma run_one_finishing_step (step : StepFn) (req : Option String) (a : Agent)
    (B : Agent → Agent) (r : String)
    (hstep : ∀ b, step b = Except.ok (B b, r))
    (hBst : ∀ b, (B b).state = AgentState.FINISHED)
    (hBcs : ∀ b, (B b).currentStep = b.currentStep)
    (hBms : ∀ b, (B b).maxSteps = b.maxSteps)
    (hidle : a.state = AgentState.IDLE) (hzero : a.currentStep = 0)
    (hmax : 1 < a.maxSteps) :
    ∃ bf, run step req a = Except.ok (bf, "步骤 1: " ++ r) ∧
      bf.state = AgentState.IDLE ∧ bf.currentStep = 1 := by
  obtain ⟨hbody, hcs1⟩ := runBody_one_finishing_step step
    { applyRequest req a with state := AgentState.RUNNING } B r hstep hBst hBcs hBms
    (by show (applyRequest req a).currentStep = 0
        rw [applyRequest_currentStep]; exact hzero)
    (by show 1 < (applyRequest req a).maxSteps
        rw [applyRequest_maxSteps]; exact hmax)
    rfl
  have hrun := run_of_runBody_ok step req a _ _ hidle hbody
  refine ⟨{ stuckProc (B { ({ applyRequest req a with state := AgentState.RUNNING } : Agent) with
      currentStep := ({ applyRequest req a with state := AgentState.RUNNING } : Agent).currentStep + 1 }) with
      state := a.state }, ?_, ?_, ?_⟩
  · rw [hrun]
    rfl
  · exact hidle
  · exact hcs1

/-- C6: a think whose model query fails with a wrapped token-limit error
appends the limit notice as an assistant message, forces FINISHED and returns
should_act = false without re-raising; step() then yields the fixed no-action
message, and run() on a fresh IDLE agent terminates normally with exactly
that step line as its result. -/
theorem think_token_limit_terminates (msg : String) (choice : ToolChoice)
    (parse : String → Option Args) (tools : List (String × Tool))
    (special : List String) (req : Option String) (a : Agent)
    (hidle : a.state = AgentState.IDLE) (hzero : a.currentStep = 0)
    (hmax : 1 < a.maxSteps) :
    (∀ b, think (tokenLimitAsk msg) choice b =
      Except.ok (tokenLimitAgent msg b, false)) ∧
    (∀ b, (tokenLimitAgent msg b).state = AgentState.FINISHED) ∧
    (∀ b, (tokenLimitAgent msg b).memory = (applyPrompt b).memory ++
      [Message.assistantMessage (some ("达到最大令牌限制，无法继续执行: " ++ msg))]) ∧
    (∀ b, reactStep (think (tokenLimitAsk msg) choice)
      (act parse tools special choice) b =
      Except.ok (tokenLimitAgent msg b, "思考完成 - 无需行动")) ∧
    (∃ bf, run (reactStep (think (tokenLimitAsk msg) choice)
        (act parse tools special choice)) req a =
      Except.ok (bf, "步骤 1: 思考完成 - 无需行动") ∧
      bf.state = AgentState.IDLE ∧ bf.currentStep = 1) := by
  refine ⟨fun b => rfl, fun b => rfl, fun b => rfl, fun b => rfl, ?_⟩
  obtain ⟨bf, hr, hs, hc⟩ := run_one_finishing_step
    (reactStep (think (tokenLimitAsk msg) choice) (act parse tools special choice))
    req a (tokenLimitAgent msg) "思考完成 - 无需行动"
    (fun b => rfl) (fun b => rfl)
    (tokenLimitAgent_currentStep msg) (tokenLimitAgent_maxSteps msg)
    hidle hzero hmax
  exact ⟨bf, by rw [hr]; rfl, hs, hc⟩

/-- Concrete inputs for the token-limit witness. -/
def w6Agent : Agent := ⟨AgentState.IDLE, 0, 4, [], some "下一步", 2, [], none, none⟩

/-- Witness for think_token_limit_terminates at a concrete agent, prompt and
message. -/
theorem think_token_limit_terminates_witness :
    ∃ bf, run (reactStep (think (tokenLimitAsk "超出限制") ToolChoice.auto)
        (act (fun _ => Option.none) [] [] ToolChoice.auto)) (some "帮我") w6Agent =
      Except.ok (bf, "步骤 1: 思考完成 - 无需行动") ∧
      bf.state = AgentState.IDLE ∧ bf.currentStep = 1 :=
  (think_token_limit_terminates "超出限制" ToolChoice.auto (fun _ => Option.none)
    [] [] (some "帮我") w6Agent rfl rfl (by decide)).2.2.2.2

end OpenManus
